import Mathlib

/-!
A shallow embedding, in Lean 4, of the block-lifecycle and leader-selection
core of the Romer validator node: the content-addressed Block Store, the
Proposer (propose/verify/commit callbacks), the Consensus Relay (message
dispatch), and the Leader Election (region round-robin) engine, together
with theorems settling the specification's claims about them.

Bytes are modelled as `Nat` values below 256; 32-byte digests as
`List Nat` of length 32; `u64` fields as `Nat` (the source never
overflows them on the paths modelled here, and where byte encodings
matter the `% 256` projections make the width explicit).
-/

namespace Romer

/-- Little-endian byte encoding of a `u64`, as in Rust's `u64::to_le_bytes`. -/
def u64ToLeBytes (n : Nat) : List Nat :=
  (List.range 8).map (fun i => n / 256 ^ i % 256)

/-- Big-endian byte encoding of a `u64`, as used for the SHA-256 length field. -/
def u64ToBeBytes (n : Nat) : List Nat :=
  (List.range 8).map (fun i => n / 256 ^ (7 - i) % 256)

/-! ### SHA-256

Modelled from the spec: the digest function is `commonware_utils::hash`,
an external crate absent from the sources; both the spec (§3) and the
source comment in `Block::calculate_hash` identify it as SHA-256, so the
standard SHA-256 (FIPS 180-4) is embedded here.  Words are `Nat` values
kept below `2^32` by explicit reduction. -/

/-- Reduce to a 32-bit word. -/
def w32 (n : Nat) : Nat := n % 4294967296

/-- Rotate a 32-bit word right by `n` (the low bits wrap to the top; for
words below `2^32` the sum has no carries, so it equals the bitwise or). -/
def rotr (n x : Nat) : Nat := w32 (x >>> n + x <<< (32 - n))

/-- Bitwise complement of a 32-bit word. -/
def compl32 (x : Nat) : Nat := 4294967295 ^^^ x

def shaCh (x y z : Nat) : Nat := (x &&& y) ^^^ (compl32 x &&& z)

def shaMaj (x y z : Nat) : Nat := (x &&& y) ^^^ (x &&& z) ^^^ (y &&& z)

def shaBigSigma0 (x : Nat) : Nat := rotr 2 x ^^^ rotr 13 x ^^^ rotr 22 x

def shaBigSigma1 (x : Nat) : Nat := rotr 6 x ^^^ rotr 11 x ^^^ rotr 25 x

def shaSmallSigma0 (x : Nat) : Nat := rotr 7 x ^^^ rotr 18 x ^^^ x >>> 3

def shaSmallSigma1 (x : Nat) : Nat := rotr 17 x ^^^ rotr 19 x ^^^ x >>> 10

/-- The SHA-256 round constants, written in decimal. -/
def shaK : List Nat :=
  [1116352408, 1899447441, 3049323471, 3921009573, 961987163,
   1508970993, 2453635748, 2870763221, 3624381080, 310598401,
   607225278, 1426881987, 1925078388, 2162078206, 2614888103,
   3248222580, 3835390401, 4022224774, 264347078, 604807628,
   770255983, 1249150122, 1555081692, 1996064986, 2554220882,
   2821834349, 2952996808, 3210313671, 3336571891, 3584528711,
   113926993, 338241895, 666307205, 773529912, 1294757372,
   1396182291, 1695183700, 1986661051, 2177026350, 2456956037,
   2730485921, 2820302411, 3259730800, 3345764771, 3516065817,
   3600352804, 4094571909, 275423344, 430227734, 506948616,
   659060556, 883997877, 958139571, 1322822218, 1537002063,
   1747873779, 1955562222, 2024104815, 2227730452, 2361852424,
   2428436474, 2756734187, 3204031479, 3329325298]

/-- The SHA-256 initial hash state, written in decimal. -/
def shaH0 : List Nat :=
  [1779033703, 3144134277, 1013904242, 2773480762, 1359893119,
   2600822924, 528734635, 1541459225]

/-- SHA-256 padding: append `0x80`, zero bytes to 56 mod 64, then the
bit length as a big-endian `u64`. -/
def shaPad (m : List Nat) : List Nat :=
  m ++ 0x80 :: List.replicate ((119 - m.length % 64) % 64) 0 ++ u64ToBeBytes (8 * m.length)

/-- Group a byte list into big-endian 32-bit words. -/
def bytesToWordsBE : List Nat → List Nat
  | b0 :: b1 :: b2 :: b3 :: rest =>
      (((b0 * 256 + b1) * 256 + b2) * 256 + b3) :: bytesToWordsBE rest
  | _ => []

/-- Append one message-schedule word `steps` times (structural recursion so
that the kernel can evaluate it). -/
def shaExtendAux : Nat → List Nat → List Nat
  | 0, ws => ws
  | steps + 1, ws =>
      let n := ws.length
      shaExtendAux steps (ws ++ [w32 (shaSmallSigma1 (ws.getD (n - 2) 0) + ws.getD (n - 7) 0 +
        shaSmallSigma0 (ws.getD (n - 15) 0) + ws.getD (n - 16) 0)])

/-- Extend the 16 words of a block to the 64-entry message schedule. -/
def shaExtend (ws : List Nat) : List Nat :=
  shaExtendAux (64 - ws.length) ws

/-- One SHA-256 compression step, on the state `[a,b,c,d,e,f,g,h]`. -/
def shaRound (st : List Nat) (kw : Nat × Nat) : List Nat :=
  match st with
  | [a, b, c, d, e, f, g, h] =>
      let t1 := w32 (h + shaBigSigma1 e + shaCh e f g + kw.1 + kw.2)
      let t2 := w32 (shaBigSigma0 a + shaMaj a b c)
      [w32 (t1 + t2), a, b, c, w32 (d + t1), e, f, g]
  | st => st

/-- Compress one 64-byte block into the running hash state. -/
def shaCompress (hs : List Nat) (block : List Nat) : List Nat :=
  let st := (shaK.zip (shaExtend (bytesToWordsBE block))).foldl shaRound hs
  List.zipWith (fun x y => w32 (x + y)) hs st

/-- Split a byte list into 64-byte chunks; the fuel argument (any bound on
the number of chunks) keeps the recursion structural. -/
def chunk64Aux : Nat → List Nat → List (List Nat)
  | 0, _ => []
  | fuel + 1, l => if l.length = 0 then [] else l.take 64 :: chunk64Aux fuel (l.drop 64)

/-- Split a byte list into 64-byte chunks. -/
def chunk64 (l : List Nat) : List (List Nat) :=
  chunk64Aux l.length l

/-- Serialize 32-bit words back to big-endian bytes. -/
def wordsToBytesBE (ws : List Nat) : List Nat :=
  (ws.map (fun w => [w / 16777216 % 256, w / 65536 % 256, w / 256 % 256, w % 256])).flatten

/-- SHA-256 of a byte list. -/
def sha256 (m : List Nat) : List Nat :=
  wordsToBytesBE ((chunk64 (shaPad m)).foldl shaCompress shaH0)

/-- Modelled from the spec: `commonware_utils::hash` (external crate,
identified as SHA-256 by the spec and the source comments). -/
def hashBytes (m : List Nat) : List Nat := sha256 m

/-- Decidable equality for `Except`, so that concrete runs of the fallible
operations can be evaluated by `decide`. -/
instance {ε α : Type} [DecidableEq ε] [DecidableEq α] : DecidableEq (Except ε α)
  | .ok a, .ok b =>
      if h : a = b then isTrue (by rw [h]) else isFalse (by simp [h])
  | .ok _, .error _ => isFalse (by simp)
  | .error _, .ok _ => isFalse (by simp)
  | .error e, .error f =>
      if h : e = f then isTrue (by rw [h]) else isFalse (by simp [h])

/-! ### Blocks (`src/storage.rs`) -/

/-- A 32-byte digest. -/
abbrev Hash256 := List Nat

/-- The genesis sentinel hash `[1; 32]`. -/
def genesisHash : Hash256 := List.replicate 32 1

/-- Embeds `Block` from `src/storage.rs`: height, parent digest, own digest, and
creation timestamp. -/
structure Block where
  number : Nat
  parent_hash : Hash256
  hash : Hash256
  timestamp : Nat
deriving DecidableEq, Repr

/-- Embeds `Block::calculate_hash`: SHA-256 over the little-endian `number`, the
parent hash bytes, and the little-endian `timestamp`. -/
def Block.calculate_hash (b : Block) : Hash256 :=
  hashBytes (u64ToLeBytes b.number ++ b.parent_hash ++ u64ToLeBytes b.timestamp)

/-- Embeds `Block::new`: builds the block with a zeroed `hash` field, then stores
the digest of its contents in `hash`. -/
def Block.new (number : Nat) (parent_hash : Hash256) (timestamp : Nat) : Block :=
  let b : Block := { number := number, parent_hash := parent_hash,
                     hash := List.replicate 32 0, timestamp := timestamp }
  { b with hash := b.calculate_hash }

/-- Embeds `BlockError` from `src/storage.rs` (payloads of the I/O variants are
irrelevant to the claims and dropped). -/
inductive BlockError where
  | Archive
  | Serialization
  | InvalidHash
  | InvalidParentHash
  | InvalidBlockNumber
  | InvalidTimestamp
  | MissingParent
deriving DecidableEq, Repr

/-- Embeds `Block::validate`: hash self-consistency first; then, with a parent, the
linkage, numbering and timestamp checks in source order; with no parent,
only height 0 is accepted. -/
def Block.validate (b : Block) (parent : Option Block) : Except BlockError Unit :=
  if b.hash ≠ b.calculate_hash then .error .InvalidHash
  else
    match parent with
    | some p =>
        if b.parent_hash ≠ p.hash then .error .InvalidParentHash
        else if b.number ≠ p.number + 1 then .error .InvalidBlockNumber
        else if b.timestamp ≤ p.timestamp then .error .InvalidTimestamp
        else .ok ()
    | none =>
        if b.number ≠ 0 then .error .MissingParent else .ok ()

/-! ### Block Store (`src/storage.rs`, `BlockStorage`)

Modelled from the spec: `BlockStorage` delegates to the external
`commonware_storage` Archive, absent from the sources.  Per §4.1 it is a
dual-indexed store: `put` writes a block under its height and hash,
idempotently for an identical re-write, and `get_by_hash` returns the
block whose digest matches or "not found". -/

structure BlockStorage where
  blocks : List Block
deriving DecidableEq, Repr

/-- Embeds `BlockStorage::put_block`: stores the block (idempotent for a block
already present). -/
def BlockStorage.put_block (s : BlockStorage) (b : Block) : BlockStorage :=
  if b ∈ s.blocks then s else ⟨s.blocks ++ [b]⟩

/-- Embeds `BlockStorage::get_block_by_hash`. -/
def BlockStorage.get_block_by_hash (s : BlockStorage) (h : Hash256) : Option Block :=
  s.blocks.find? (fun b => b.hash == h)

/-- Embeds `BlockStorage::get_block_by_number`. -/
def BlockStorage.get_block_by_number (s : BlockStorage) (n : Nat) : Option Block :=
  s.blocks.find? (fun b => b.number == n)

/-! ### Consensus messages (`src/consensus/relay.rs`) -/

/-- Embeds `ConsensusMessage` from `src/consensus/relay.rs`. -/
inductive ConsensusMessage where
  | BlockRequest (hash : List Nat)
  | BlockResponse (block : Block)
  | NewBlock (block : Block)
  | ViewChange (view : Nat)
  | LeaderProposal (view : Nat) (leader : List Nat)
  | LeaderVote (view : Nat) (vote : List Nat)
  | LeaderAnnouncement (view : Nat) (leader : List Nat)
  | ValidatorAnnounce (public_key : List Nat) (region : String)
  | ValidatorLeave (public_key : List Nat) (region : String)
deriving DecidableEq, Repr

/-- Embeds `Recipients` from `commonware_p2p`: all peers or one peer identity. -/
inductive Recipients where
  | All
  | Single (who : List Nat)
deriving DecidableEq, Repr

/-- Embeds `RelayError` from `src/consensus/relay.rs`. -/
inductive RelayError where
  | NetworkError
  | StorageError
  | SerializationError
  | InvalidMessage
  | InvalidViewChange
  | LeaderElectionError
deriving DecidableEq, Repr

/-- Embeds `ProposerError` from `src/consensus/proposer.rs`. -/
inductive ProposerError where
  | Storage (e : BlockError)
  | Network
  | MissingParent
  | InvalidParentHash
  | InvalidBlock
  | Relay (e : RelayError)
deriving DecidableEq, Repr

/-! ### Relay primitives used by the Proposer

`ConsensusRelay::request_block` and `ConsensusRelay::broadcast_block` are
called from `src/consensus/proposer.rs` and `src/consensus/relay.rs` but
their definitions are absent from the sources. -/

/-- Modelled from the spec: `ConsensusRelay::request_block` — §4.2 says a
missing parent "issues a `BlockRequest` through Relay"; the model records
the message it sends. -/
def ConsensusRelay.request_block (h : Hash256) : List (Recipients × ConsensusMessage) :=
  [(Recipients.All, ConsensusMessage.BlockRequest h)]

/-- Modelled from the spec: `ConsensusRelay::broadcast_block` — §4.3 says a
block is forwarded via `send_to(all, NewBlock(...))`. -/
def ConsensusRelay.broadcast_block (b : Block) : List (Recipients × ConsensusMessage) :=
  [(Recipients.All, ConsensusMessage.NewBlock b)]

/-! ### Proposer (`src/consensus/proposer.rs`)

The proposer's async methods are embedded as functions over the storage
state; network sends are recorded as a message trace (the transport is
external and modelled as accepting every send), and the wall clock enters
as the explicit `now` argument. -/

/-- Embeds `Proposer::create_block`: the parent number is `0` for the genesis
sentinel, the stored parent's number when found, and otherwise the attempt
fails with `MissingParent` after a `request_block`.  Returns the result
together with the relay messages sent. -/
def Proposer.create_block (s : BlockStorage) (now : Nat) (parent_hash : Hash256) :
    Except ProposerError Block × List (Recipients × ConsensusMessage) :=
  let parent_number : Except ProposerError Nat × List (Recipients × ConsensusMessage) :=
    if parent_hash = genesisHash then (.ok 0, [])
    else
      match s.get_block_by_hash parent_hash with
      | some parent => (.ok parent.number, [])
      | none => (.error .MissingParent, ConsensusRelay.request_block parent_hash)
  match parent_number with
  | (.ok n, msgs) => (.ok (Block.new (n + 1) parent_hash now), msgs)
  | (.error e, msgs) => (.error e, msgs)

/-- What the task spawned by `Proposer::propose` leaves behind: the value
sent on the oneshot channel (if any), the storage state, and the relay
traffic. -/
structure ProposeOutcome where
  sent : Option Hash256
  storage : BlockStorage
  msgs : List (Recipients × ConsensusMessage)
deriving DecidableEq, Repr

/-- The task spawned by `Proposer::propose`: on success the block is stored,
broadcast, and its hash sent on the channel; on any error the parent hash
is sent back as a fallback.  Storage writes and broadcasts are modelled as
succeeding (their failure paths send nothing and are outside the claims). -/
def Proposer.propose (s : BlockStorage) (now : Nat) (_view : Nat) (parent_hash : Hash256) :
    ProposeOutcome :=
  match Proposer.create_block s now parent_hash with
  | (.ok block, msgs) =>
      { sent := some block.hash
        storage := s.put_block block
        msgs := msgs ++ ConsensusRelay.broadcast_block block }
  | (.error _, msgs) =>
      { sent := some parent_hash, storage := s, msgs := msgs }

/-- Lock-explicit embedding of `Proposer::validate_block`.  `held` records
whether the calling task already holds the storage mutex; tokio's `Mutex`
is not reentrant, so a second `lock().await` by the same task never
completes, modelled as `none`.  The parent-hash comparison precedes the
lock acquisition, exactly as in the source. -/
def Proposer.validate_block (held : Bool) (s : BlockStorage) (b : Block)
    (expected_parent : Hash256) :
    Option (Except ProposerError Unit × List (Recipients × ConsensusMessage)) :=
  if b.parent_hash ≠ expected_parent then some (.error .InvalidParentHash, [])
  else if held then none
  else
    let parent : Except ProposerError (Option Block) × List (Recipients × ConsensusMessage) :=
      if expected_parent = genesisHash then (.ok none, [])
      else
        match s.get_block_by_hash expected_parent with
        | some p => (.ok (some p), [])
        | none => (.error .MissingParent, ConsensusRelay.request_block expected_parent)
    match parent with
    | (.ok p, msgs) =>
        match b.validate p with
        | .ok () => some (.ok (), msgs)
        | .error e => some (.error (.Storage e), msgs)
    | (.error e, msgs) => some (.error e, msgs)

/-- The task spawned by `Proposer::verify`: it acquires the storage mutex,
looks the candidate up, and calls `validate_block` while still holding the
guard.  `none` means the task deadlocks and never sends on the channel;
`some (b, msgs)` means `b` is delivered after sending `msgs`. -/
def Proposer.verify (s : BlockStorage) (parent_hash payload : Hash256) :
    Option (Bool × List (Recipients × ConsensusMessage)) :=
  match s.get_block_by_hash payload with
  | some block =>
      match Proposer.validate_block true s block parent_hash with
      | some (.ok _, msgs) => some (true, msgs)
      | some (.error _, msgs) => some (false, msgs)
      | none => none
  | none => some (false, ConsensusRelay.request_block payload)

/-- Embeds `Proposer::committed`: copies the first 32 payload bytes (panicking,
`none`, when fewer are supplied), updates the cached latest hash, and
broadcasts the block when it is found locally. -/
def Proposer.committed (s : BlockStorage) (payload : List Nat) :
    Option (Hash256 × List (Recipients × ConsensusMessage)) :=
  if payload.length < 32 then none
  else
    let h := payload.take 32
    match s.get_block_by_hash h with
    | some block => some (h, [(Recipients.All, ConsensusMessage.NewBlock block)])
    | none => some (h, [])

/-! ### Leader election (`src/consensus/beacon.rs`) -/

/-- Modelled from the spec: `Ed25519` (external `commonware_cryptography`
crate) — a validator identity carrying its 32-byte public key. -/
structure Ed25519 where
  public_key : List Nat
deriving DecidableEq, Repr

/-- Modelled from the spec: `Ed25519::from_public_key` succeeds exactly on
well-formed 32-byte keys. -/
def Ed25519.from_public_key (pk : List Nat) : Except Unit Ed25519 :=
  if pk.length = 32 then .ok ⟨pk⟩ else .error ()

/-- The region registry `HashMap<String, Vec<Ed25519>>`, modelled as an
association list in insertion order (iteration order of the Rust map is
arbitrary; no settled claim depends on it across several regions). -/
abbrev Registry := List (String × List Ed25519)

/-- Embeds `HashMap::get` on the registry model. -/
def registryGet (m : Registry) (k : String) : Option (List Ed25519) :=
  (m.find? (fun p => p.1 == k)).map Prod.snd

/-- Embeds `validators.entry(region).or_insert_with(Vec::new).push(validator)`. -/
def registryPush (m : Registry) (k : String) (v : Ed25519) : Registry :=
  match m with
  | [] => [(k, [v])]
  | (k', vs) :: rest =>
      if k' = k then (k', vs ++ [v]) :: rest else (k', vs) :: registryPush rest k v

/-- Embeds `region_validators.retain(|v| v.public_key() != validator_key)` applied
to the named region. -/
def registryRetain (m : Registry) (k : String) (pk : List Nat) : Registry :=
  m.map (fun p => if p.1 = k then (p.1, p.2.filter (fun v => v.public_key != pk)) else p)

/-- Embeds `BeaconError` from `src/consensus/beacon.rs`. -/
inductive BeaconError where
  | InvalidRegion (region : String)
  | LockError
  | NoValidators
  | InvalidValidator
deriving DecidableEq, Repr

/-- Embeds `BeaconConsensus`: the registry, the fixed rotation order, and the
shared rotation cursor.  Lock poisoning (`LockError`) cannot arise in the
sequential model. -/
structure BeaconConsensus where
  validators_by_region : Registry
  regions : List String
  current_region_idx : Nat
deriving DecidableEq, Repr

/-- Embeds `BeaconConsensus::new`. -/
def BeaconConsensus.new (regions : List String) : BeaconConsensus :=
  { validators_by_region := [], regions := regions, current_region_idx := 0 }

/-- Embeds `BeaconConsensus::register_validator`: reject unknown regions, else
append to the region's list. -/
def BeaconConsensus.register_validator (b : BeaconConsensus) (region : String)
    (v : Ed25519) : Except BeaconError BeaconConsensus :=
  if ¬ b.regions.contains region then .error (.InvalidRegion region)
  else .ok { b with validators_by_region := registryPush b.validators_by_region region v }

/-- Embeds `BeaconConsensus::remove_validator`: drop every occurrence of the key
from the region's list; a no-op on an absent region or key. -/
def BeaconConsensus.remove_validator (b : BeaconConsensus) (region : String)
    (validator_key : List Nat) : Except BeaconError BeaconConsensus :=
  .ok { b with validators_by_region := registryRetain b.validators_by_region region validator_key }

/-- The scan loop of `next_active_region`: examine up to `fuel` regions
starting at `idx`, advancing the cursor past each examined region. -/
def scanRegions (regs : List String) (m : Registry) : Nat → Nat → Option String × Nat
  | idx, 0 => (none, idx)
  | idx, fuel + 1 =>
      let region := regs.getD idx ""
      let idx' := (idx + 1) % regs.length
      match registryGet m region with
      | some vs => if vs ≠ [] then (some region, idx') else scanRegions regs m idx' fuel
      | none => scanRegions regs m idx' fuel

/-- Embeds `BeaconConsensus::next_active_region`: round-robin scan of at most one
full cycle, returning the first region with a validator and leaving the
cursor just past it. -/
def BeaconConsensus.next_active_region (b : BeaconConsensus) :
    Option String × BeaconConsensus :=
  let (r, idx') := scanRegions b.regions b.validators_by_region
    b.current_region_idx b.regions.length
  (r, { b with current_region_idx := idx' })

/-- Embeds `BeaconConsensus::get_region_validators`. -/
def BeaconConsensus.get_region_validators (b : BeaconConsensus) (region : String) :
    List Ed25519 :=
  (registryGet b.validators_by_region region).getD []

/-- Embeds `BeaconConsensus::get_all_validators`: the regions' lists flattened, with
no deduplication. -/
def BeaconConsensus.get_all_validators (b : BeaconConsensus) : List Ed25519 :=
  (b.validators_by_region.map Prod.snd).flatten

/-- Embeds `Supervisor::leader` for `BeaconConsensus`: pick the next active region
(advancing the shared cursor as a side effect) and index into its validator
list by `view mod len`. -/
def BeaconConsensus.leader (b : BeaconConsensus) (view : Nat) :
    Option (List Nat) × BeaconConsensus :=
  match b.next_active_region with
  | (none, b') => (none, b')
  | (some region, b') =>
      let validators := b'.get_region_validators region
      if validators = [] then (none, b')
      else
        let validator_idx := view % validators.length
        (some (validators.getD validator_idx ⟨[]⟩).public_key, b')

/-- Embeds `Supervisor::participants` for `BeaconConsensus`: every registered
identity, region by region, or `none` when the registry is empty. -/
def BeaconConsensus.participants (b : BeaconConsensus) (_view : Nat) :
    Option (List (List Nat)) :=
  let all_validators := b.get_all_validators
  if all_validators = [] then none
  else some (all_validators.map Ed25519.public_key)

/-! ### Consensus Relay (`src/consensus/relay.rs`) -/

/-- What `ConsensusRelay::handle_message` leaves behind: its `Result`, the
storage and beacon states, and the messages it sent. -/
structure HandleOutcome where
  result : Except RelayError Unit
  storage : BlockStorage
  beacon : BeaconConsensus
  sent : List (Recipients × ConsensusMessage)
deriving Repr

/-- Embeds `ConsensusRelay::handle_message`; `none` models a panic (the
`&hash[..32]` slice of a short `BlockRequest` payload).  Received blocks
are persisted with no validation; the `Result` of `register_validator` is
discarded; the leader-election helpers it calls are the no-op bodies from
the source. -/
def ConsensusRelay.handle_message (s : BlockStorage) (beacon : BeaconConsensus)
    (msg : ConsensusMessage) (sender : List Nat) : Option HandleOutcome :=
  match msg with
  | .BlockRequest h =>
      if h.length < 32 then none
      else
        match s.get_block_by_hash (h.take 32) with
        | some block =>
            some ⟨.ok (), s, beacon, [(Recipients.Single sender, .BlockResponse block)]⟩
        | none => some ⟨.ok (), s, beacon, []⟩
  | .BlockResponse block => some ⟨.ok (), s.put_block block, beacon, []⟩
  | .NewBlock block => some ⟨.ok (), s.put_block block, beacon, []⟩
  | .ViewChange _ => some ⟨.ok (), s, beacon, []⟩
  | .LeaderProposal view leader =>
      some ⟨.ok (), s, beacon, [(Recipients.All, .LeaderVote view leader)]⟩
  | .LeaderVote _ _ => some ⟨.ok (), s, beacon, []⟩
  | .LeaderAnnouncement _ _ => some ⟨.ok (), s, beacon, []⟩
  | .ValidatorAnnounce pk region =>
      match Ed25519.from_public_key pk with
      | .error _ => some ⟨.error .InvalidMessage, s, beacon, []⟩
      | .ok v =>
          match beacon.register_validator region v with
          | .ok beacon' => some ⟨.ok (), s, beacon', []⟩
          | .error _ => some ⟨.ok (), s, beacon, []⟩
  | .ValidatorLeave pk region =>
      match beacon.remove_validator region pk with
      | .ok beacon' => some ⟨.ok (), s, beacon', []⟩
      | .error _ => some ⟨.ok (), s, beacon, []⟩

/-- Embeds `Relay::broadcast` for `ConsensusRelay`: copy the first 32 payload bytes
(panicking, `none`, when fewer are supplied), then forward the block found
under that digest, or silently skip. -/
def ConsensusRelay.broadcast (s : BlockStorage) (payload : List Nat) :
    Option (List (Recipients × ConsensusMessage)) :=
  if payload.length < 32 then none
  else
    match s.get_block_by_hash (payload.take 32) with
    | some block => some (ConsensusRelay.broadcast_block block)
    | none => some []

/-! ### Helper lemmas -/

/-- A block built by `Block::new` satisfies hash self-consistency. -/
theorem Block.new_hash_consistent (n : Nat) (ph : Hash256) (t : Nat) :
    (Block.new n ph t).hash = (Block.new n ph t).calculate_hash := rfl

/-- The fields of `Block::new`. -/
theorem Block.new_fields (n : Nat) (ph : Hash256) (t : Nat) :
    (Block.new n ph t).number = n ∧ (Block.new n ph t).parent_hash = ph ∧
    (Block.new n ph t).timestamp = t :=
  ⟨rfl, rfl, rfl⟩

/-- Lemma: `put_block` leaves the written block in the store. -/
theorem BlockStorage.mem_put_block (s : BlockStorage) (b : Block) :
    b ∈ (s.put_block b).blocks := by
  unfold BlockStorage.put_block
  split
  · assumption
  · simp

/-! ### Claims -/

/-- C1: for a `Proposer::propose` call whose context parent hash is the
genesis sentinel, the code builds, persists and returns the digest of a
block with `number = 1` — not `0` as the claim states — because
`create_block` treats the absent parent as height 0 and adds one; that
block even fails the code's own `Block::validate` with no parent, which
accepts only height 0. -/
theorem c1_propose_genesis_builds_number_one (s : BlockStorage) (now view : Nat) :
    (Proposer.create_block s now genesisHash).1 = .ok (Block.new 1 genesisHash now) ∧
    (Block.new 1 genesisHash now).number = 1 ∧
    (Proposer.propose s now view genesisHash).sent = some (Block.new 1 genesisHash now).hash ∧
    (Proposer.propose s now view genesisHash).storage = s.put_block (Block.new 1 genesisHash now) ∧
    (Block.new 1 genesisHash now).validate none = .error BlockError.MissingParent := by
  refine ⟨by simp [Proposer.create_block], rfl, ?_, ?_, ?_⟩
  · simp [Proposer.propose, Proposer.create_block]
  · simp [Proposer.propose, Proposer.create_block]
  · have hh := Block.new_hash_consistent 1 genesisHash now
    have hnum : (Block.new 1 genesisHash now).number = 1 := rfl
    unfold Block.validate
    rw [if_neg (by simp [hh])]
    simp [hnum]

/-- C3 counterexample: with an empty store and a non-genesis parent hash,
the proposal attempt fails with `MissingParent`, yet the engine does
receive a value on the proposal channel — the parent hash itself is sent
as a fallback, contradicting the claim that no value is delivered. -/
theorem c3_counterexample_fallback_sent :
    (Proposer.create_block ⟨[]⟩ 100 (List.replicate 32 2)).1 =
      .error ProposerError.MissingParent ∧
    (Proposer.propose ⟨[]⟩ 100 0 (List.replicate 32 2)).sent =
      some (List.replicate 32 2) := by
  constructor <;> decide

/-- C3 (amended): for a parent hash that is neither the genesis sentinel
nor stored, `propose` issues a `BlockRequest`, leaves the store unchanged,
fails the attempt with `MissingParent`, and sends the parent hash itself
on the proposal channel as a fallback value. -/
theorem c3_missing_parent_requests_and_falls_back (s : BlockStorage)
    (now view : Nat) (ph : Hash256)
    (hg : ph ≠ genesisHash) (habs : s.get_block_by_hash ph = none) :
    (Proposer.create_block s now ph).1 = .error ProposerError.MissingParent ∧
    Proposer.propose s now view ph =
      ⟨some ph, s, [(Recipients.All, ConsensusMessage.BlockRequest ph)]⟩ := by
  constructor <;>
    simp [Proposer.propose, Proposer.create_block, hg, habs, ConsensusRelay.request_block]

/-- C3 witness: the amended statement applied to the empty store and the
all-twos parent hash. -/
theorem c3_missing_parent_witness :
    (Proposer.create_block ⟨[]⟩ 100 (List.replicate 32 2)).1 =
      .error ProposerError.MissingParent ∧
    Proposer.propose ⟨[]⟩ 100 0 (List.replicate 32 2) =
      ⟨some (List.replicate 32 2), ⟨[]⟩,
        [(Recipients.All, ConsensusMessage.BlockRequest (List.replicate 32 2))]⟩ :=
  c3_missing_parent_requests_and_falls_back ⟨[]⟩ 100 0 (List.replicate 32 2)
    (by decide) (by decide)

/-- C4: `Block::validate` with a present parent succeeds exactly when the
block is hash-consistent, linked to the parent, numbered one above it, and
strictly later; the checks run in sequence and the first failing one
determines the error. -/
theorem c4_validate_iff_first_failure (b p : Block) :
    (b.validate (some p) = .ok () ↔
      b.hash = b.calculate_hash ∧ b.parent_hash = p.hash ∧
      b.number = p.number + 1 ∧ b.timestamp > p.timestamp) ∧
    (b.hash ≠ b.calculate_hash → b.validate (some p) = .error BlockError.InvalidHash) ∧
    (b.hash = b.calculate_hash → b.parent_hash ≠ p.hash →
      b.validate (some p) = .error BlockError.InvalidParentHash) ∧
    (b.hash = b.calculate_hash → b.parent_hash = p.hash → b.number ≠ p.number + 1 →
      b.validate (some p) = .error BlockError.InvalidBlockNumber) ∧
    (b.hash = b.calculate_hash → b.parent_hash = p.hash → b.number = p.number + 1 →
      b.timestamp ≤ p.timestamp →
      b.validate (some p) = .error BlockError.InvalidTimestamp) := by
  simp only [Block.validate]
  split_ifs with h1 h2 h3 h4 <;> simp_all

/-- C4 witness: the characterization applied to a concrete parent and a
concrete well-formed child, yielding a successful validation. -/
theorem c4_validate_witness :
    (Block.new 1 (Block.new 0 (List.replicate 32 0) 10).hash 11).validate
      (some (Block.new 0 (List.replicate 32 0) 10)) = .ok () :=
  (c4_validate_iff_first_failure _ _).1.mpr
    ⟨Block.new_hash_consistent _ _ _, rfl, rfl, by decide⟩

/-- C10: every payload of fewer than 32 bytes makes `Proposer::committed`,
`ConsensusRelay::broadcast`, and the `BlockRequest` branch of
`ConsensusRelay::handle_message` panic on the `[..32]` slice instead of
returning an error or ignoring the message. -/
theorem c10_short_payload_panics (s : BlockStorage) (beacon : BeaconConsensus)
    (payload sender : List Nat) (hshort : payload.length < 32) :
    Proposer.committed s payload = none ∧
    ConsensusRelay.broadcast s payload = none ∧
    ConsensusRelay.handle_message s beacon (.BlockRequest payload) sender = none := by
  refine ⟨?_, ?_, ?_⟩ <;>
    simp [Proposer.committed, ConsensusRelay.broadcast, ConsensusRelay.handle_message, hshort]

/-- C10 witness: the empty payload panics all three entry points. -/
theorem c10_short_payload_witness :
    Proposer.committed ⟨[]⟩ [] = none ∧
    ConsensusRelay.broadcast ⟨[]⟩ [] = none ∧
    ConsensusRelay.handle_message ⟨[]⟩ (BeaconConsensus.new []) (.BlockRequest []) [] = none :=
  c10_short_payload_panics ⟨[]⟩ (BeaconConsensus.new []) [] [] (by decide)

/-- C2: whenever the candidate block is present in the store and its
parent hash matches the context (the case a correct proposal produces),
the task spawned by `Proposer::verify` deadlocks: it still holds the
storage mutex when `validate_block` tries to acquire the same
non-reentrant mutex, so no boolean is ever delivered on the channel. -/
theorem c2_verify_deadlocks_on_stored_block (s : BlockStorage)
    (parent_hash payload : Hash256) (block : Block)
    (hfound : s.get_block_by_hash payload = some block)
    (hparent : block.parent_hash = parent_hash) :
    Proposer.verify s parent_hash payload = none := by
  simp [Proposer.verify, hfound, Proposer.validate_block, hparent]

/-- C2 witness: the deadlock at a concrete store holding the genesis-child
block the proposer itself builds. -/
theorem c2_verify_deadlock_witness :
    (BlockStorage.mk [Block.new 0 genesisHash 5]).get_block_by_hash
      (Block.new 0 genesisHash 5).hash = some (Block.new 0 genesisHash 5) ∧
    Proposer.verify ⟨[Block.new 0 genesisHash 5]⟩ genesisHash
      (Block.new 0 genesisHash 5).hash = none := by
  refine ⟨by decide, ?_⟩
  exact c2_verify_deadlocks_on_stored_block ⟨[Block.new 0 genesisHash 5]⟩
    genesisHash (Block.new 0 genesisHash 5).hash (Block.new 0 genesisHash 5)
    (by decide) rfl

/-- C5 counterexample: a block whose `hash` field is not the digest of its
contents is persisted as-is by `handle_message` on a `NewBlock`, with a
successful result — no hash self-consistency check happens. -/
theorem c5_counterexample_unvalidated_block_persisted :
    (Block.mk 5 (List.replicate 32 9) (List.replicate 32 7) 123).hash ≠
      (Block.mk 5 (List.replicate 32 9) (List.replicate 32 7) 123).calculate_hash ∧
    ConsensusRelay.handle_message ⟨[]⟩ (BeaconConsensus.new [])
      (.NewBlock (Block.mk 5 (List.replicate 32 9) (List.replicate 32 7) 123)) [] =
      some ⟨.ok (), ⟨[Block.mk 5 (List.replicate 32 9) (List.replicate 32 7) 123]⟩,
        BeaconConsensus.new [], []⟩ := by
  refine ⟨by decide, rfl⟩

/-- C5 (amended): `handle_message` persists the block carried by a
`NewBlock` or `BlockResponse` unconditionally via `put_block` — even a
block failing hash self-consistency ends up in the store. -/
theorem c5_newblock_persisted_without_validation (s : BlockStorage)
    (beacon : BeaconConsensus) (block : Block) (sender : List Nat)
    (hbad : block.hash ≠ block.calculate_hash) :
    ConsensusRelay.handle_message s beacon (.NewBlock block) sender =
      some ⟨.ok (), s.put_block block, beacon, []⟩ ∧
    ConsensusRelay.handle_message s beacon (.BlockResponse block) sender =
      some ⟨.ok (), s.put_block block, beacon, []⟩ ∧
    block ∈ (s.put_block block).blocks :=
  ⟨rfl, rfl, BlockStorage.mem_put_block s block⟩

/-- C5 witness: the amended statement applied to the concrete
hash-inconsistent block. -/
theorem c5_newblock_persisted_witness :
    ConsensusRelay.handle_message ⟨[]⟩ (BeaconConsensus.new [])
      (.NewBlock (Block.mk 5 (List.replicate 32 9) (List.replicate 32 7) 123)) [] =
      some ⟨.ok (), BlockStorage.put_block ⟨[]⟩
        (Block.mk 5 (List.replicate 32 9) (List.replicate 32 7) 123),
        BeaconConsensus.new [], []⟩ ∧
    ConsensusRelay.handle_message ⟨[]⟩ (BeaconConsensus.new [])
      (.BlockResponse (Block.mk 5 (List.replicate 32 9) (List.replicate 32 7) 123)) [] =
      some ⟨.ok (), BlockStorage.put_block ⟨[]⟩
        (Block.mk 5 (List.replicate 32 9) (List.replicate 32 7) 123),
        BeaconConsensus.new [], []⟩ ∧
    (Block.mk 5 (List.replicate 32 9) (List.replicate 32 7) 123) ∈
      (BlockStorage.put_block ⟨[]⟩
        (Block.mk 5 (List.replicate 32 9) (List.replicate 32 7) 123)).blocks :=
  c5_newblock_persisted_without_validation ⟨[]⟩ (BeaconConsensus.new [])
    (Block.mk 5 (List.replicate 32 9) (List.replicate 32 7) 123) [] (by decide)

/-- C9 counterexample: a `ValidatorAnnounce` naming the unknown region
"Atlantis" makes `register_validator` return `InvalidRegion`, yet
`handle_message` discards that error and reports success to its caller. -/
theorem c9_counterexample_invalid_region_ok :
    (BeaconConsensus.new ["Frankfurt"]).register_validator "Atlantis"
      ⟨List.replicate 32 1⟩ = .error (.InvalidRegion "Atlantis") ∧
    ConsensusRelay.handle_message ⟨[]⟩ (BeaconConsensus.new ["Frankfurt"])
      (.ValidatorAnnounce (List.replicate 32 1) "Atlantis") [] =
      some ⟨.ok (), ⟨[]⟩, BeaconConsensus.new ["Frankfurt"], []⟩ := by
  refine ⟨by decide, rfl⟩

/-- C9 (amended): for a well-formed key and an unrecognized region name,
`handle_message` swallows the `InvalidRegion` rejection: it returns
success and leaves the registry untouched. -/
theorem c9_invalid_region_silently_dropped (s : BlockStorage)
    (beacon : BeaconConsensus) (pk : List Nat) (region : String) (sender : List Nat)
    (hlen : pk.length = 32) (hreg : region ∉ beacon.regions) :
    ConsensusRelay.handle_message s beacon (.ValidatorAnnounce pk region) sender =
      some ⟨.ok (), s, beacon, []⟩ := by
  simp [ConsensusRelay.handle_message, Ed25519.from_public_key, hlen,
    BeaconConsensus.register_validator, hreg]

/-- C9 witness: the amended statement applied at the "Atlantis" announce. -/
theorem c9_invalid_region_witness :
    ConsensusRelay.handle_message ⟨[]⟩ (BeaconConsensus.new ["Frankfurt"])
      (.ValidatorAnnounce (List.replicate 32 1) "Atlantis") [] =
      some ⟨.ok (), ⟨[]⟩, BeaconConsensus.new ["Frankfurt"], []⟩ :=
  c9_invalid_region_silently_dropped ⟨[]⟩ (BeaconConsensus.new ["Frankfurt"])
    (List.replicate 32 1) "Atlantis" [] (by decide) (by decide)

/-! ### Leader-election theorems -/

/-- The beacon state after a sequence of `leader` calls (each call advances
the shared rotation cursor as a side effect). -/
def leaderCalls (b : BeaconConsensus) (views : List Nat) : BeaconConsensus :=
  views.foldl (fun st v => (st.leader v).2) b

/-- A `leader` call mutates only the rotation cursor: the registry and the
region list are untouched. -/
theorem leader_preserves_registry (b : BeaconConsensus) (v : Nat) :
    ((b.leader v).2).validators_by_region = b.validators_by_region ∧
    ((b.leader v).2).regions = b.regions := by
  rcases hsc : scanRegions b.regions b.validators_by_region
    b.current_region_idx b.regions.length with ⟨r, idx⟩
  cases r <;>
    simp [BeaconConsensus.leader, BeaconConsensus.next_active_region, hsc] <;>
    split_ifs <;> simp

/-- A run of `leader` calls mutates only the rotation cursor. -/
theorem leaderCalls_preserves_registry (b : BeaconConsensus) (views : List Nat) :
    (leaderCalls b views).validators_by_region = b.validators_by_region ∧
    (leaderCalls b views).regions = b.regions := by
  induction views generalizing b with
  | nil => exact ⟨rfl, rfl⟩
  | cons v vs ih =>
      have h := leader_preserves_registry b v
      have h2 := ih ((b.leader v).2)
      exact ⟨h2.1.trans h.1, h2.2.trans h.2⟩

/-- Two beacon states agreeing on all three fields are equal. -/
theorem beacon_eq_of_fields (x y : BeaconConsensus)
    (h1 : x.validators_by_region = y.validators_by_region)
    (h2 : x.regions = y.regions)
    (h3 : x.current_region_idx = y.current_region_idx) : x = y := by
  cases x; cases y; simp_all

/-- C6 counterexample: with one validator in each of two regions, two
consecutive `leader` calls for the same round return different leaders —
the first call advanced the shared rotation cursor, so the result is not a
function of the round and registry contents alone. -/
theorem c6_counterexample_cursor_dependence :
    ((⟨[("A", [⟨List.replicate 32 10⟩]), ("B", [⟨List.replicate 32 11⟩])],
        ["A", "B"], 0⟩ : BeaconConsensus).leader 0).1 = some (List.replicate 32 10) ∧
    ((((⟨[("A", [⟨List.replicate 32 10⟩]), ("B", [⟨List.replicate 32 11⟩])],
        ["A", "B"], 0⟩ : BeaconConsensus).leader 0).2).leader 0).1 =
      some (List.replicate 32 11) ∧
    List.replicate 32 10 ≠ List.replicate 32 11 := by
  refine ⟨by decide, by decide, by decide⟩

/-- C6 (amended): `leader` is a deterministic function of the round, the
registry contents, and the rotation cursor: two runs that performed any
numbers of preceding `leader` calls return the same leader for a round
whenever the calls left the cursor at the same index — but the cursor does
advance on each call, so runs whose cursors differ may disagree. -/
theorem c6_leader_two_run_determinism (b : BeaconConsensus)
    (views₁ views₂ : List Nat) (round : Nat)
    (hcur : (leaderCalls b views₁).current_region_idx =
      (leaderCalls b views₂).current_region_idx) :
    ((leaderCalls b views₁).leader round).1 =
      ((leaderCalls b views₂).leader round).1 := by
  have h1 := leaderCalls_preserves_registry b views₁
  have h2 := leaderCalls_preserves_registry b views₂
  have heq : leaderCalls b views₁ = leaderCalls b views₂ :=
    beacon_eq_of_fields _ _ (h1.1.trans h2.1.symm) (h1.2.trans h2.2.symm) hcur
  rw [heq]

/-- C6 witness: runs preceded by `[0, 0]` and by `[1, 1]` leader calls both
leave the cursor at 0 in the two-region beacon, so round 5 yields the same
leader on both runs. -/
theorem c6_two_run_witness :
    ((leaderCalls (⟨[("A", [⟨List.replicate 32 10⟩]), ("B", [⟨List.replicate 32 11⟩])],
        ["A", "B"], 0⟩ : BeaconConsensus) [0, 0]).leader 5).1 =
    ((leaderCalls (⟨[("A", [⟨List.replicate 32 10⟩]), ("B", [⟨List.replicate 32 11⟩])],
        ["A", "B"], 0⟩ : BeaconConsensus) [1, 1]).leader 5).1 :=
  c6_leader_two_run_determinism _ [0, 0] [1, 1] 5 (by decide)

/-- C7 counterexample: announcing the same identity twice in region "A"
leaves two copies in the registry, and `participants` returns that identity
twice — the result is not deduplicated. -/
theorem c7_counterexample_duplicate_participant :
    (((BeaconConsensus.new ["A"]).register_validator "A" ⟨List.replicate 32 3⟩).bind
        (fun b => b.register_validator "A" ⟨List.replicate 32 3⟩)).map
      (fun b => b.participants 0) =
      .ok (some [List.replicate 32 3, List.replicate 32 3]) := by decide

/-- C7 (amended): `participants` returns every registered identity, region
by region, without deduplication (duplicate registrations appear as many
times as registered), and returns `none` exactly when no validator is
registered in any region. -/
theorem c7_participants_all_no_dedup (b : BeaconConsensus) (view : Nat) :
    (b.participants view = none ↔ b.get_all_validators = []) ∧
    (b.get_all_validators ≠ [] →
      b.participants view = some (b.get_all_validators.map Ed25519.public_key)) := by
  simp only [BeaconConsensus.participants]
  split_ifs with h <;> simp_all

/-- C7 witness: in a beacon with a single registered validator,
`participants` returns exactly that identity. -/
theorem c7_participants_witness :
    (⟨[("A", [⟨List.replicate 32 3⟩])], ["A"], 0⟩ : BeaconConsensus).participants 0 =
      some [List.replicate 32 3] :=
  (c7_participants_all_no_dedup ⟨[("A", [⟨List.replicate 32 3⟩])], ["A"], 0⟩ 0).2
    (by decide)

/-! ### Registry-mutation sequences (for the at-most-one-region claim)

`ConsensusRelay::handle_message` drives the registry through exactly two
operations: a `ValidatorAnnounce` calls `register_validator` (discarding
its error), a `ValidatorLeave` calls `remove_validator`. -/

/-- One registry mutation, as issued by `handle_message` or directly. -/
inductive RegistryEvent where
  | reg (region : String) (v : Ed25519)
  | rem (region : String) (validator_key : List Nat)
deriving DecidableEq, Repr

/-- Apply one event the way `handle_message` does: a failed registration
(unknown region) leaves the beacon unchanged. -/
def applyEvent (b : BeaconConsensus) : RegistryEvent → BeaconConsensus
  | .reg region v =>
      match b.register_validator region v with
      | .ok b' => b'
      | .error _ => b
  | .rem region key =>
      match b.remove_validator region key with
      | .ok b' => b'
      | .error _ => b

/-- The beacon state after a sequence of registry events. -/
def runEvents (b : BeaconConsensus) (evs : List RegistryEvent) : BeaconConsensus :=
  evs.foldl applyEvent b

/-- The identity `pk` is registered under region `r` in the registry. -/
def Appears (m : Registry) (pk : List Nat) (r : String) : Prop :=
  ∃ p ∈ m, p.1 = r ∧ ∃ v ∈ p.2, v.public_key = pk

/-- Pushing a validator into region `k` creates exactly the appearance
`(k, v)` beyond the existing ones. -/
theorem appears_push {m : Registry} {k : String} {v : Ed25519}
    {pk : List Nat} {r : String} :
    Appears (registryPush m k v) pk r ↔
      Appears m pk r ∨ (r = k ∧ v.public_key = pk) := by
  induction m with
  | nil =>
      simp only [registryPush, Appears]
      constructor
      · rintro ⟨p, hp, hr, w, hw, hpk⟩
        simp only [List.mem_singleton] at hp
        subst hp
        simp only [List.mem_singleton] at hw
        subst hw
        exact .inr ⟨hr.symm, hpk⟩
      · rintro (⟨p, hp, _⟩ | ⟨hr, hpk⟩)
        · simp at hp
        · exact ⟨(k, [v]), by simp, hr.symm, v, by simp, hpk⟩
  | cons p rest ih =>
      obtain ⟨k', vs⟩ := p
      simp only [registryPush]
      split_ifs with hk
      · subst hk
        constructor
        · rintro ⟨q, hq, hr, w, hw, hpk⟩
          rcases List.mem_cons.mp hq with hq | hq
          · subst hq
            rcases List.mem_append.mp hw with hw | hw
            · exact .inl ⟨(k', vs), by simp, hr, w, hw, hpk⟩
            · simp only [List.mem_singleton] at hw
              subst hw
              exact .inr ⟨hr.symm, hpk⟩
          · exact .inl ⟨q, List.mem_cons_of_mem _ hq, hr, w, hw, hpk⟩
        · rintro (⟨q, hq, hr, w, hw, hpk⟩ | ⟨hr, hpk⟩)
          · rcases List.mem_cons.mp hq with hq | hq
            · subst hq
              exact ⟨(k', vs ++ [v]), by simp, hr, w, by simp [hw], hpk⟩
            · exact ⟨q, List.mem_cons_of_mem _ hq, hr, w, hw, hpk⟩
          · exact ⟨(k', vs ++ [v]), by simp, hr.symm, v, by simp, hpk⟩
      · constructor
        · rintro ⟨q, hq, hr, w, hw, hpk⟩
          rcases List.mem_cons.mp hq with hq | hq
          · subst hq
            exact .inl ⟨(k', vs), by simp, hr, w, hw, hpk⟩
          · rcases ih.mp ⟨q, hq, hr, w, hw, hpk⟩ with h | h
            · obtain ⟨q', hq', hr', w', hw', hpk'⟩ := h
              exact .inl ⟨q', List.mem_cons_of_mem _ hq', hr', w', hw', hpk'⟩
            · exact .inr h
        · rintro (⟨q, hq, hr, w, hw, hpk⟩ | ⟨hr, hpk⟩)
          · rcases List.mem_cons.mp hq with hq | hq
            · subst hq
              exact ⟨(k', vs), by simp, hr, w, hw, hpk⟩
            · obtain ⟨q', hq', hr', w', hw', hpk'⟩ := ih.mpr (.inl ⟨q, hq, hr, w, hw, hpk⟩)
              exact ⟨q', List.mem_cons_of_mem _ hq', hr', w', hw', hpk'⟩
          · obtain ⟨q', hq', hr', w', hw', hpk'⟩ := ih.mpr (.inr ⟨hr, hpk⟩)
            exact ⟨q', List.mem_cons_of_mem _ hq', hr', w', hw', hpk'⟩

/-- Removing a key from a region never creates a new appearance. -/
theorem appears_retain {m : Registry} {k : String} {key pk : List Nat} {r : String}
    (h : Appears (registryRetain m k key) pk r) : Appears m pk r := by
  obtain ⟨p, hp, hr, w, hw, hpk⟩ := h
  simp only [registryRetain] at hp
  obtain ⟨q, hq, hqe⟩ := List.mem_map.mp hp
  by_cases hqk : q.1 = k
  · rw [if_pos hqk] at hqe
    subst hqe
    exact ⟨q, hq, hr, w, (List.mem_filter.mp hw).1, hpk⟩
  · rw [if_neg hqk] at hqe
    subst hqe
    exact ⟨q, hq, hr, w, hw, hpk⟩

/-- An appearance after one event comes from an existing appearance or from
the registration the event performed. -/
theorem appears_applyEvent {b : BeaconConsensus} {e : RegistryEvent}
    {pk : List Nat} {r : String}
    (h : Appears (applyEvent b e).validators_by_region pk r) :
    Appears b.validators_by_region pk r ∨
      ∃ v, e = .reg r v ∧ v.public_key = pk := by
  cases e with
  | reg region v =>
      by_cases hreg : region ∈ b.regions
      · have : applyEvent b (.reg region v) =
            { b with validators_by_region := registryPush b.validators_by_region region v } := by
          simp [applyEvent, BeaconConsensus.register_validator, hreg]
        rw [this] at h
        rcases appears_push.mp h with h | ⟨hr, hpk⟩
        · exact .inl h
        · exact .inr ⟨v, by rw [hr], hpk⟩
      · have : applyEvent b (.reg region v) = b := by
          simp [applyEvent, BeaconConsensus.register_validator, hreg]
        rw [this] at h
        exact .inl h
  | rem region key =>
      have : applyEvent b (.rem region key) =
          { b with validators_by_region := registryRetain b.validators_by_region region key } := by
        simp [applyEvent, BeaconConsensus.remove_validator]
      rw [this] at h
      exact .inl (appears_retain h)

/-- An appearance after a run of events comes from an existing appearance or
from some registration event in the run. -/
theorem appears_runEvents {evs : List RegistryEvent} {b : BeaconConsensus}
    {pk : List Nat} {r : String}
    (h : Appears (runEvents b evs).validators_by_region pk r) :
    Appears b.validators_by_region pk r ∨
      ∃ v, RegistryEvent.reg r v ∈ evs ∧ v.public_key = pk := by
  induction evs generalizing b with
  | nil => exact .inl h
  | cons e rest ih =>
      rcases ih (b := applyEvent b e) h with h' | ⟨v, hv, hpk⟩
      · rcases appears_applyEvent h' with h'' | ⟨v, he, hpk⟩
        · exact .inl h''
        · exact .inr ⟨v, by simp [he], hpk⟩
      · exact .inr ⟨v, List.mem_cons_of_mem _ hv, hpk⟩

/-- C8 counterexample: announcing the same identity in regions "A" and "B"
(two valid regions) leaves it registered in both — the at-most-one-region
invariant fails for this reachable state. -/
theorem c8_counterexample_two_regions :
    (runEvents (BeaconConsensus.new ["A", "B"])
        [.reg "A" ⟨List.replicate 32 4⟩, .reg "B" ⟨List.replicate 32 4⟩]).validators_by_region =
      [("A", [⟨List.replicate 32 4⟩]), ("B", [⟨List.replicate 32 4⟩])] ∧
    Appears [("A", [⟨List.replicate 32 4⟩]), ("B", [⟨List.replicate 32 4⟩])]
      (List.replicate 32 4) "A" ∧
    Appears [("A", [⟨List.replicate 32 4⟩]), ("B", [⟨List.replicate 32 4⟩])]
      (List.replicate 32 4) "B" ∧
    ("A" : String) ≠ "B" := by
  refine ⟨by decide, ⟨("A", [⟨List.replicate 32 4⟩]), by simp, rfl,
    ⟨List.replicate 32 4⟩, by simp, rfl⟩,
    ⟨("B", [⟨List.replicate 32 4⟩]), by simp, rfl,
    ⟨List.replicate 32 4⟩, by simp, rfl⟩, by decide⟩

/-- C8 (amended): `register_validator` performs no cross-region uniqueness
check, so an identity announced under two different regions appears in
both; the at-most-one-region invariant does hold for every state reached
by a sequence whose registrations never name two different regions for the
same identity (removals are unrestricted). -/
theorem c8_single_region_when_registrations_agree (regions : List String)
    (evs : List RegistryEvent)
    (huniq : ∀ r₁ v₁ r₂ v₂, RegistryEvent.reg r₁ v₁ ∈ evs →
      RegistryEvent.reg r₂ v₂ ∈ evs → v₁.public_key = v₂.public_key → r₁ = r₂)
    (pk : List Nat) (r r' : String)
    (h : Appears (runEvents (BeaconConsensus.new regions) evs).validators_by_region pk r)
    (h' : Appears (runEvents (BeaconConsensus.new regions) evs).validators_by_region pk r') :
    r = r' := by
  rcases appears_runEvents h with habs | ⟨v, hv, hpk⟩
  · obtain ⟨p, hp, -⟩ := habs
    simp [BeaconConsensus.new] at hp
  rcases appears_runEvents h' with habs | ⟨v', hv', hpk'⟩
  · obtain ⟨p, hp, -⟩ := habs
    simp [BeaconConsensus.new] at hp
  exact huniq r v r' v' hv hv' (hpk.trans hpk'.symm)

/-- C8 witness: a single registration in region "A" satisfies the
single-region condition, and both appearances of that identity name "A". -/
theorem c8_single_region_witness :
    Appears (runEvents (BeaconConsensus.new ["A"])
      [.reg "A" ⟨List.replicate 32 4⟩]).validators_by_region
      (List.replicate 32 4) "A" ∧
    ("A" : String) = "A" := by
  have happ : Appears (runEvents (BeaconConsensus.new ["A"])
      [.reg "A" ⟨List.replicate 32 4⟩]).validators_by_region
      (List.replicate 32 4) "A" :=
    ⟨("A", [⟨List.replicate 32 4⟩]), by decide, rfl, ⟨List.replicate 32 4⟩, by simp, rfl⟩
  refine ⟨happ, ?_⟩
  exact c8_single_region_when_registrations_agree ["A"] [.reg "A" ⟨List.replicate 32 4⟩]
    (by
      rintro r₁ v₁ r₂ v₂ h₁ h₂ -
      simp only [List.mem_singleton, RegistryEvent.reg.injEq] at h₁ h₂
      rw [h₁.1, h₂.1])
    (List.replicate 32 4) "A" "A" happ happ

end Romer
